import Mathlib

/-!
Verification of the Spool durable event queue and dispatcher (openclaw).

The development shallowly embeds the spool core:
* `src/spool/schema.ts` — the zod event schema and `validateSpoolEvent`;
* `src/spool/watcher.ts` (revised version) — `processQueue`, `start`, `stop`;
* the event store reader and the dispatcher, whose source files are not in
  the tree, are modelled from the specification (doc comments say so).

JSON values are a plain inductive; JavaScript numbers are modelled as
rationals (the schema only inspects integrality, sign and ordering);
filesystem paths are lists of segments with string filenames, so that
`path.basename` and `path.join` are the list operations.
-/

namespace Spool

/-- A JSON value as handed to `validateSpoolEvent` (the result of parsing an
event file). Numbers carry a rational, which suffices for the `int`,
`positive` and `min(0)` checks the schema performs. -/
inductive Json where
  | null : Json
  | bool (b : Bool) : Json
  | num (q : Rat) : Json
  | str (s : String) : Json
  | arr (elems : List Json) : Json
  | obj (fields : List (String × Json)) : Json

/-- The two string-format checks the schema delegates to zod
(`z.string().uuid(...)` and `z.string().datetime(...)`), abstracted as
predicates: the claims under verification do not depend on the exact
regular expressions, only on where the checks are applied. -/
structure StringChecks where
  isUuid : String → Bool
  isDatetime : String → Bool

/-- One zod issue: a path into the object and a message, as consumed by
`result.error.issues.map((i) => i.path.join(".") + ": " + i.message)`. -/
structure Issue where
  path : List String
  message : String
deriving DecidableEq, Repr

/-- Renders one issue the way `validateSpoolEvent` does:
`i.path.join(".") + ": " + i.message`. -/
def renderIssue (i : Issue) : String :=
  String.intercalate "." i.path ++ ": " ++ i.message

/-- The JavaScript type name zod reports in invalid-type messages. -/
def typeName : Json → String
  | .null => "null"
  | .bool _ => "boolean"
  | .num _ => "number"
  | .str _ => "string"
  | .arr _ => "array"
  | .obj _ => "object"

/-- Field lookup in a parsed JSON object. -/
def lookupField (name : String) : List (String × Json) → Option Json
  | [] => none
  | (k, v) :: rest => if k = name then some v else lookupField name rest

/-- Re-roots the issues produced for a sub-value under the field name, the
way zod prefixes paths of nested schemas. -/
def underField (name : String) (issues : List Issue) : List Issue :=
  issues.map (fun i => ⟨name :: i.path, i.message⟩)

/-- Issues of a required field of a strict object: `Required` when the key is
absent, else the field schema's issues re-rooted under the key. -/
def requiredField (name : String) (check : Json → List Issue)
    (fields : List (String × Json)) : List Issue :=
  match lookupField name fields with
  | none => [⟨[name], "Required"⟩]
  | some v => underField name (check v)

/-- Issues of an `.optional()` field: none when the key is absent, else the
field schema's issues re-rooted under the key. -/
def optionalField (name : String) (check : Json → List Issue)
    (fields : List (String × Json)) : List Issue :=
  match lookupField name fields with
  | none => []
  | some v => underField name (check v)

/-- The `.strict()` unknown-key issue: zod collects every input key not in
the shape and reports them in a single `unrecognized_keys` issue at the
object's own path. -/
def unknownKeyIssues (allowed : List String)
    (fields : List (String × Json)) : List Issue :=
  let extras := (fields.map Prod.fst).filter (fun k => !(allowed.contains k))
  if extras.isEmpty then []
  else [⟨[], "Unrecognized key(s) in object: " ++
          String.intercalate ", " (extras.map (fun k => "'" ++ k ++ "'"))⟩]

/-- `z.literal(1)` for the `version` field. -/
def checkVersion : Json → List Issue
  | .num q => if q = 1 then [] else [⟨[], "Invalid literal value, expected 1"⟩]
  | _ => [⟨[], "Invalid literal value, expected 1"⟩]

/-- `z.literal("agentTurn")` for the payload `kind` field. -/
def checkKind : Json → List Issue
  | .str s => if s = "agentTurn" then []
      else [⟨[], "Invalid literal value, expected \x22agentTurn\x22"⟩]
  | _ => [⟨[], "Invalid literal value, expected \x22agentTurn\x22"⟩]

/-- `z.string().uuid("id must be a valid UUID")`. -/
def checkUuid (c : StringChecks) : Json → List Issue
  | .str s => if c.isUuid s then [] else [⟨[], "id must be a valid UUID"⟩]
  | v => [⟨[], "Expected string, received " ++ typeName v⟩]

/-- `z.string().datetime(msg)`; `msg` is the configured message
("createdAt must be ISO 8601" on `createdAt`, zod's default elsewhere). -/
def checkDatetime (c : StringChecks) (msg : String) : Json → List Issue
  | .str s => if c.isDatetime s then [] else [⟨[], msg⟩]
  | v => [⟨[], "Expected string, received " ++ typeName v⟩]

/-- `z.number().int().positive()` for `createdAtMs`; zod runs both checks
and collects an issue for each failure. -/
def checkPosInt : Json → List Issue
  | .num q =>
      (if q.den = 1 then [] else [⟨[], "Expected integer, received float"⟩]) ++
      (if 0 < q then [] else [⟨[], "Number must be greater than 0"⟩])
  | v => [⟨[], "Expected number, received " ++ typeName v⟩]

/-- `z.number().int().min(0)` for `maxRetries` / `retryCount`. -/
def checkNonnegInt : Json → List Issue
  | .num q =>
      (if q.den = 1 then [] else [⟨[], "Expected integer, received float"⟩]) ++
      (if 0 ≤ q then [] else [⟨[], "Number must be greater than or equal to 0"⟩])
  | v => [⟨[], "Expected number, received " ++ typeName v⟩]

/-- The list of priority names of `spoolPrioritySchema`. -/
def priorityNames : List String := ["low", "normal", "high", "critical"]

/-- `z.enum(["low", "normal", "high", "critical"])`. -/
def checkPriority : Json → List Issue
  | .str s => if priorityNames.contains s then [] else [⟨[], "Invalid enum value"⟩]
  | v => [⟨[], "Expected string, received " ++ typeName v⟩]

/-- `z.string()`. -/
def checkString : Json → List Issue
  | .str _ => []
  | v => [⟨[], "Expected string, received " ++ typeName v⟩]

/-- `z.string().min(1, "message is required")`. -/
def checkMessage : Json → List Issue
  | .str s => if 1 ≤ s.length then [] else [⟨[], "message is required"⟩]
  | v => [⟨[], "Expected string, received " ++ typeName v⟩]

/-- `z.boolean()`. -/
def checkBool : Json → List Issue
  | .bool _ => []
  | v => [⟨[], "Expected boolean, received " ++ typeName v⟩]

/-- The keys of `spoolDeliverySchema`. -/
def deliveryKeys : List String := ["enabled", "channel", "to"]

/-- `spoolDeliverySchema`: a strict object of three optional fields. -/
def spoolDeliveryIssues : Json → List Issue
  | .obj fields =>
      optionalField "enabled" checkBool fields ++
      optionalField "channel" checkString fields ++
      optionalField "to" checkString fields ++
      unknownKeyIssues deliveryKeys fields
  | v => [⟨[], "Expected object, received " ++ typeName v⟩]

/-- The keys of `spoolAgentTurnPayloadSchema`. -/
def payloadKeys : List String :=
  ["kind", "message", "agentId", "sessionKey", "model", "thinking", "delivery"]

/-- `spoolPayloadSchema` (= `spoolAgentTurnPayloadSchema`): a strict object
with literal `kind`, required non-empty `message`, four optional strings and
an optional nested delivery object. -/
def spoolPayloadIssues : Json → List Issue
  | .obj fields =>
      requiredField "kind" checkKind fields ++
      requiredField "message" checkMessage fields ++
      optionalField "agentId" checkString fields ++
      optionalField "sessionKey" checkString fields ++
      optionalField "model" checkString fields ++
      optionalField "thinking" checkString fields ++
      optionalField "delivery" spoolDeliveryIssues fields ++
      unknownKeyIssues payloadKeys fields
  | v => [⟨[], "Expected object, received " ++ typeName v⟩]

/-- The top-level keys of `spoolEventSchema`. -/
def eventKeys : List String :=
  ["version", "id", "createdAt", "createdAtMs", "priority", "maxRetries",
   "retryCount", "expiresAt", "payload"]

/-- `spoolEventSchema`: the strict top-level object of `schema.ts`. -/
def spoolEventIssues (c : StringChecks) : Json → List Issue
  | .obj fields =>
      requiredField "version" checkVersion fields ++
      requiredField "id" (checkUuid c) fields ++
      requiredField "createdAt" (checkDatetime c "createdAt must be ISO 8601") fields ++
      requiredField "createdAtMs" checkPosInt fields ++
      optionalField "priority" checkPriority fields ++
      optionalField "maxRetries" checkNonnegInt fields ++
      optionalField "retryCount" checkNonnegInt fields ++
      optionalField "expiresAt" (checkDatetime c "Invalid datetime") fields ++
      requiredField "payload" spoolPayloadIssues fields ++
      unknownKeyIssues eventKeys fields
  | v => [⟨[], "Expected object, received " ++ typeName v⟩]

/-- The event priorities of `spoolPrioritySchema`. -/
inductive SpoolPriority where
  | low : SpoolPriority
  | normal : SpoolPriority
  | high : SpoolPriority
  | critical : SpoolPriority
deriving DecidableEq, Repr

/-- The parsed delivery directive; `toRecipient` models the source field
named `to`, which is a keyword here. -/
structure SpoolDelivery where
  enabled : Option Bool
  channel : Option String
  toRecipient : Option String
deriving DecidableEq, Repr

/-- The parsed `agentTurn` payload (`kind` is the fixed literal and is not
stored). -/
structure SpoolPayload where
  message : String
  agentId : Option String
  sessionKey : Option String
  model : Option String
  thinking : Option String
  delivery : Option SpoolDelivery
deriving DecidableEq, Repr

/-- The parsed spool event (`version` is the fixed literal `1` and is not
stored; `createdAtMs` is an integer once validation has passed, `maxRetries`
and `retryCount` non-negative integers). -/
structure SpoolEvent where
  id : String
  createdAt : String
  createdAtMs : Int
  priority : Option SpoolPriority
  maxRetries : Option Nat
  retryCount : Option Nat
  expiresAt : Option String
  payload : SpoolPayload
deriving DecidableEq, Repr

instance : Inhabited SpoolPayload :=
  ⟨⟨"", none, none, none, none, none⟩⟩

instance : Inhabited SpoolEvent :=
  ⟨⟨"", "", 0, none, none, none, none, default⟩⟩

/-- Reads an optional string field from a looked-up JSON value. -/
def asStr : Option Json → Option String
  | some (.str s) => some s
  | _ => none

/-- Reads an optional boolean field from a looked-up JSON value. -/
def asBool : Option Json → Option Bool
  | some (.bool b) => some b
  | _ => none

/-- Reads an optional non-negative-integer field from a looked-up JSON
value. -/
def asNat : Option Json → Option Nat
  | some (.num q) => some q.num.toNat
  | _ => none

/-- Reads a priority name into the enum. -/
def asPriority : Option Json → Option SpoolPriority
  | some (.str "low") => some .low
  | some (.str "normal") => some .normal
  | some (.str "high") => some .high
  | some (.str "critical") => some .critical
  | _ => none

/-- Builds the parsed delivery directive of a validated delivery object. -/
def extractDelivery : Json → SpoolDelivery
  | .obj fields =>
      { enabled := asBool (lookupField "enabled" fields)
        channel := asStr (lookupField "channel" fields)
        toRecipient := asStr (lookupField "to" fields) }
  | _ => { enabled := none, channel := none, toRecipient := none }

/-- Builds the parsed payload of a validated payload object. -/
def extractPayload : Option Json → SpoolPayload
  | some (.obj fields) =>
      { message := (asStr (lookupField "message" fields)).getD ""
        agentId := asStr (lookupField "agentId" fields)
        sessionKey := asStr (lookupField "sessionKey" fields)
        model := asStr (lookupField "model" fields)
        thinking := asStr (lookupField "thinking" fields)
        delivery := (lookupField "delivery" fields).map extractDelivery }
  | _ => default

/-- Builds the parsed event of a validated top-level object. -/
def extractEvent : Json → SpoolEvent
  | .obj fields =>
      { id := (asStr (lookupField "id" fields)).getD ""
        createdAt := (asStr (lookupField "createdAt" fields)).getD ""
        createdAtMs :=
          match lookupField "createdAtMs" fields with
          | some (.num q) => q.num
          | _ => 0
        priority := asPriority (lookupField "priority" fields)
        maxRetries := asNat (lookupField "maxRetries" fields)
        retryCount := asNat (lookupField "retryCount" fields)
        expiresAt := asStr (lookupField "expiresAt" fields)
        payload := extractPayload (lookupField "payload" fields) }
  | _ => default

/-- The result type of `validateSpoolEvent` in `schema.ts`. -/
inductive ValidateResult where
  | valid (event : SpoolEvent) : ValidateResult
  | invalid (error : String) : ValidateResult
deriving DecidableEq, Repr

/-- `validateSpoolEvent` of `schema.ts`: `safeParse` against
`spoolEventSchema`, and on failure the single joined
`path.join(".") + ": " + message` string, joined with "; ". -/
def validateSpoolEvent (c : StringChecks) (data : Json) : ValidateResult :=
  let issues := spoolEventIssues c data
  if issues.isEmpty then .valid (extractEvent data)
  else .invalid (String.intercalate "; " (issues.map renderIssue))

/-!
The declarative acceptance predicate, written from the specification's
description of the schema (§3 and §4.1 of the spec): required and optional
fields, strictness at every level. `validateSpoolEvent` is proved to accept
exactly the inputs this predicate accepts.
-/

/-- A required field of the spec's data model: the key must be present and
its value must pass the field condition. -/
def specReq (check : Json → Bool) (name : String)
    (fields : List (String × Json)) : Bool :=
  match lookupField name fields with
  | some v => check v
  | none => false

/-- An optional field of the spec's data model: absent is fine, a present
value must pass the field condition. -/
def specOpt (check : Json → Bool) (name : String)
    (fields : List (String × Json)) : Bool :=
  match lookupField name fields with
  | some v => check v
  | none => true

/-- The spec's strictness: every key of the object is a known field. -/
def noUnknownKeys (allowed : List String)
    (fields : List (String × Json)) : Bool :=
  (fields.map Prod.fst).all (fun k => allowed.contains k)

/-- The spec: `version` is the fixed literal `1`. -/
def isVersionOne : Json → Bool
  | .num q => decide (q = 1)
  | _ => false

/-- The spec: a UUID-shaped string. -/
def isUuidStr (c : StringChecks) : Json → Bool
  | .str s => c.isUuid s
  | _ => false

/-- The spec: an ISO-8601 timestamp string. -/
def isDatetimeStr (c : StringChecks) : Json → Bool
  | .str s => c.isDatetime s
  | _ => false

/-- The strictly positive integer the schema demands of `createdAtMs`. -/
def isPosIntNum : Json → Bool
  | .num q => decide (q.den = 1) && decide (0 < q)
  | _ => false

/-- The spec: a non-negative integer (`maxRetries`, `retryCount`). -/
def isNonnegIntNum : Json → Bool
  | .num q => decide (q.den = 1) && decide (0 ≤ q)
  | _ => false

/-- The spec: one of `low | normal | high | critical`. -/
def isPriorityStr : Json → Bool
  | .str s => priorityNames.contains s
  | _ => false

/-- The spec: the payload tag is the literal `agentTurn`. -/
def isKindAgentTurn : Json → Bool
  | .str s => decide (s = "agentTurn")
  | _ => false

/-- The spec: a required non-empty message string. -/
def isNonemptyStr : Json → Bool
  | .str s => decide (1 ≤ s.length)
  | _ => false

/-- A plain string value. -/
def isStrVal : Json → Bool
  | .str _ => true
  | _ => false

/-- A plain boolean value. -/
def isBoolVal : Json → Bool
  | .bool _ => true
  | _ => false

/-- The spec's delivery directive: optional `enabled`, `channel`, `to`, and
nothing else. -/
def deliveryAccepts : Json → Bool
  | .obj fields =>
      specOpt isBoolVal "enabled" fields &&
      specOpt isStrVal "channel" fields &&
      specOpt isStrVal "to" fields &&
      noUnknownKeys deliveryKeys fields
  | _ => false

/-- The spec's `agentTurn` payload: the tag, a required non-empty message,
optional overrides, an optional delivery directive, and nothing else. -/
def payloadAccepts : Json → Bool
  | .obj fields =>
      specReq isKindAgentTurn "kind" fields &&
      specReq isNonemptyStr "message" fields &&
      specOpt isStrVal "agentId" fields &&
      specOpt isStrVal "sessionKey" fields &&
      specOpt isStrVal "model" fields &&
      specOpt isStrVal "thinking" fields &&
      specOpt deliveryAccepts "delivery" fields &&
      noUnknownKeys payloadKeys fields
  | _ => false

/-- The spec's event shape: `version` literally `1`, UUID-shaped `id`,
ISO-8601 `createdAt` and optional `expiresAt`, positive-integer
`createdAtMs`, optional priority in the enum, integers ≥ 0 for the retry
fields, the payload, and no unknown top-level fields. -/
def schemaAccepts (c : StringChecks) : Json → Bool
  | .obj fields =>
      specReq isVersionOne "version" fields &&
      specReq (isUuidStr c) "id" fields &&
      specReq (isDatetimeStr c) "createdAt" fields &&
      specReq isPosIntNum "createdAtMs" fields &&
      specOpt isPriorityStr "priority" fields &&
      specOpt isNonnegIntNum "maxRetries" fields &&
      specOpt isNonnegIntNum "retryCount" fields &&
      specOpt (isDatetimeStr c) "expiresAt" fields &&
      specReq payloadAccepts "payload" fields &&
      noUnknownKeys eventKeys fields
  | _ => false

/-!
Equivalence of the issue-collecting parse with the declarative predicate.
-/

/-- Re-rooting issues does not create or destroy them. -/
theorem underField_eq_nil (name : String) (issues : List Issue) :
    underField name issues = [] ↔ issues = [] := by
  simp [underField]

/-- A required field contributes no issue exactly when the spec's required
condition holds, given the field schemas agree pointwise. -/
theorem requiredField_eq_nil (name : String) (check : Json → List Issue)
    (cb : Json → Bool) (fields : List (String × Json))
    (h : ∀ v, check v = [] ↔ cb v = true) :
    requiredField name check fields = [] ↔ specReq cb name fields = true := by
  unfold requiredField specReq
  cases lookupField name fields with
  | none => simp
  | some v => simp [underField_eq_nil, h v]

/-- An optional field contributes no issue exactly when the spec's optional
condition holds, given the field schemas agree pointwise. -/
theorem optionalField_eq_nil (name : String) (check : Json → List Issue)
    (cb : Json → Bool) (fields : List (String × Json))
    (h : ∀ v, check v = [] ↔ cb v = true) :
    optionalField name check fields = [] ↔ specOpt cb name fields = true := by
  unfold optionalField specOpt
  cases lookupField name fields with
  | none => simp
  | some v => simp [underField_eq_nil, h v]

/-- The strict-object unknown-key issue is absent exactly when every key is
known. -/
theorem unknownKeyIssues_eq_nil (allowed : List String)
    (fields : List (String × Json)) :
    unknownKeyIssues allowed fields = [] ↔
      noUnknownKeys allowed fields = true := by
  unfold unknownKeyIssues noUnknownKeys
  have h : ((fields.map Prod.fst).filter (fun k => !(allowed.contains k)) = []) ↔
      ((fields.map Prod.fst).all (fun k => allowed.contains k) = true) := by
    rw [List.filter_eq_nil_iff, List.all_eq_true]
    constructor
    · intro h x hx
      have := h x hx
      simp only [Bool.not_eq_true'] at this
      simpa using this
    · intro h x hx
      have := h x hx
      simp only [Bool.not_eq_true']
      simpa using this
  by_cases he : (fields.map Prod.fst).filter (fun k => !(allowed.contains k)) = []
  · simp [he, h.mp he]
  · have hb : ¬ ((fields.map Prod.fst).all (fun k => allowed.contains k) = true) :=
      fun hx => he (h.mpr hx)
    simp [List.isEmpty_iff, he, hb]

/-- `checkVersion` agrees with the spec's literal-1 condition. -/
theorem checkVersion_iff (v : Json) :
    checkVersion v = [] ↔ isVersionOne v = true := by
  cases v <;> simp [checkVersion, isVersionOne] <;> split <;> simp_all

/-- `checkKind` agrees with the spec's literal-agentTurn condition. -/
theorem checkKind_iff (v : Json) :
    checkKind v = [] ↔ isKindAgentTurn v = true := by
  cases v <;> simp [checkKind, isKindAgentTurn] <;> split <;> simp_all

/-- `checkUuid` agrees with the spec's UUID-shaped condition. -/
theorem checkUuid_iff (c : StringChecks) (v : Json) :
    checkUuid c v = [] ↔ isUuidStr c v = true := by
  cases v <;> simp [checkUuid, isUuidStr] <;> split <;> simp_all

/-- `checkDatetime` agrees with the spec's ISO-8601 condition, whatever the
configured message. -/
theorem checkDatetime_iff (c : StringChecks) (msg : String) (v : Json) :
    checkDatetime c msg v = [] ↔ isDatetimeStr c v = true := by
  cases v <;> simp [checkDatetime, isDatetimeStr] <;> split <;> simp_all

/-- `checkPosInt` agrees with the spec's positive-integer condition. -/
theorem checkPosInt_iff (v : Json) :
    checkPosInt v = [] ↔ isPosIntNum v = true := by
  cases v <;> simp [checkPosInt, isPosIntNum] <;> split <;> split <;> simp_all

/-- `checkNonnegInt` agrees with the spec's integer-≥-0 condition. -/
theorem checkNonnegInt_iff (v : Json) :
    checkNonnegInt v = [] ↔ isNonnegIntNum v = true := by
  cases v <;> simp [checkNonnegInt, isNonnegIntNum] <;> split <;> split <;> simp_all

/-- `checkPriority` agrees with the spec's enum condition. -/
theorem checkPriority_iff (v : Json) :
    checkPriority v = [] ↔ isPriorityStr v = true := by
  cases v <;> simp [checkPriority, isPriorityStr] <;> split <;> simp_all

/-- `checkString` agrees with the spec's string condition. -/
theorem checkString_iff (v : Json) :
    checkString v = [] ↔ isStrVal v = true := by
  cases v <;> simp [checkString, isStrVal]

/-- `checkMessage` agrees with the spec's non-empty-string condition. -/
theorem checkMessage_iff (v : Json) :
    checkMessage v = [] ↔ isNonemptyStr v = true := by
  cases v <;> simp [checkMessage, isNonemptyStr] <;> omega

/-- `checkBool` agrees with the spec's boolean condition. -/
theorem checkBool_iff (v : Json) :
    checkBool v = [] ↔ isBoolVal v = true := by
  cases v <;> simp [checkBool, isBoolVal]

/-- The delivery schema accepts exactly the spec's delivery directives. -/
theorem spoolDeliveryIssues_iff (v : Json) :
    spoolDeliveryIssues v = [] ↔ deliveryAccepts v = true := by
  cases v <;> simp only [spoolDeliveryIssues, deliveryAccepts] <;>
    try simp
  rw [optionalField_eq_nil _ _ _ _ checkBool_iff,
      optionalField_eq_nil _ _ _ _ checkString_iff,
      optionalField_eq_nil _ _ _ _ checkString_iff,
      unknownKeyIssues_eq_nil]
  simp [and_assoc]

/-- The payload schema accepts exactly the spec's `agentTurn` payloads. -/
theorem spoolPayloadIssues_iff (v : Json) :
    spoolPayloadIssues v = [] ↔ payloadAccepts v = true := by
  cases v <;> simp only [spoolPayloadIssues, payloadAccepts] <;>
    try simp
  rw [requiredField_eq_nil _ _ _ _ checkKind_iff,
      requiredField_eq_nil _ _ _ _ checkMessage_iff,
      optionalField_eq_nil _ _ _ _ checkString_iff,
      optionalField_eq_nil _ _ _ _ checkString_iff,
      optionalField_eq_nil _ _ _ _ checkString_iff,
      optionalField_eq_nil _ _ _ _ checkString_iff,
      optionalField_eq_nil _ _ _ _ spoolDeliveryIssues_iff,
      unknownKeyIssues_eq_nil]
  simp [and_assoc]

/-- The event schema accepts exactly the spec's events: `spoolEventIssues`
is empty precisely when the declarative predicate holds. -/
theorem spoolEventIssues_iff (c : StringChecks) (v : Json) :
    spoolEventIssues c v = [] ↔ schemaAccepts c v = true := by
  cases v <;> simp only [spoolEventIssues, schemaAccepts] <;>
    try simp
  rw [requiredField_eq_nil _ _ _ _ checkVersion_iff,
      requiredField_eq_nil _ _ _ _ (checkUuid_iff c),
      requiredField_eq_nil _ _ _ _ (checkDatetime_iff c _),
      requiredField_eq_nil _ _ _ _ checkPosInt_iff,
      optionalField_eq_nil _ _ _ _ checkPriority_iff,
      optionalField_eq_nil _ _ _ _ checkNonnegInt_iff,
      optionalField_eq_nil _ _ _ _ checkNonnegInt_iff,
      optionalField_eq_nil _ _ _ _ (checkDatetime_iff c _),
      requiredField_eq_nil _ _ _ _ spoolPayloadIssues_iff,
      unknownKeyIssues_eq_nil]
  simp [and_assoc]

/-- `validateSpoolEvent` succeeds exactly when the declarative predicate
accepts the input. -/
theorem validateSpoolEvent_valid_iff (c : StringChecks) (j : Json) :
    (∃ e, validateSpoolEvent c j = .valid e) ↔ schemaAccepts c j = true := by
  unfold validateSpoolEvent
  rcases hj : spoolEventIssues c j with _ | ⟨i, rest⟩
  · simpa using (spoolEventIssues_iff c j).mp hj
  · have : schemaAccepts c j = false := by
      rcases hb : schemaAccepts c j with _ | _
      · rfl
      · exact absurd ((spoolEventIssues_iff c j).mpr hb) (by simp [hj])
    simp [this, hj]

/-- On failure, `validateSpoolEvent` returns the joined
`path.join(".") + ": " + message` string of the issues. -/
theorem validateSpoolEvent_invalid_eq (c : StringChecks) (j : Json)
    (err : String) (h : validateSpoolEvent c j = .invalid err) :
    err = String.intercalate "; " ((spoolEventIssues c j).map renderIssue) ∧
      spoolEventIssues c j ≠ [] := by
  unfold validateSpoolEvent at h
  rcases hj : spoolEventIssues c j with _ | ⟨i, rest⟩ <;> simp [hj] at h
  exact ⟨h.symm, by simp⟩

/-!
The event-store reader. Its source file (`reader.ts`) is not in the tree;
the listing operation is modelled from the specification.
-/

/-- The numeric rank of a priority, `critical` ranking highest. -/
def priorityRankOf : SpoolPriority → Nat
  | .critical => 3
  | .high => 2
  | .normal => 1
  | .low => 0

/-- Modelled from the spec: an absent `priority` "defaults to `normal` when
absent for ordering purposes", so the resolved rank of an event reads the
optional field with `normal` as the default. -/
def priorityRank (p : Option SpoolPriority) : Nat :=
  priorityRankOf (p.getD .normal)

/-- Modelled from the spec: the sort order of `list()` — "priority
descending (`critical > high > normal > low`), then `createdAtMs` ascending
(oldest first) as the tie-break". -/
def spoolBefore (a b : SpoolEvent) : Prop :=
  priorityRank b.priority < priorityRank a.priority ∨
    (priorityRank a.priority = priorityRank b.priority ∧
      a.createdAtMs ≤ b.createdAtMs)

instance : DecidableRel spoolBefore := by
  intro a b
  unfold spoolBefore
  infer_instance

instance : IsTotal SpoolEvent spoolBefore := by
  constructor
  intro a b
  rcases Nat.lt_trichotomy (priorityRank a.priority) (priorityRank b.priority)
    with h | h | h
  · exact Or.inr (Or.inl h)
  · rcases Int.le_total a.createdAtMs b.createdAtMs with hm | hm
    · exact Or.inl (Or.inr ⟨h, hm⟩)
    · exact Or.inr (Or.inr ⟨h.symm, hm⟩)
  · exact Or.inl (Or.inl h)

instance : IsTrans SpoolEvent spoolBefore := by
  constructor
  intro a b c hab hbc
  rcases hab with h1 | ⟨h1, m1⟩ <;> rcases hbc with h2 | ⟨h2, m2⟩
  · exact Or.inl (h2.trans h1)
  · exact Or.inl (h2 ▸ h1)
  · exact Or.inl (h1 ▸ h2)
  · exact Or.inr ⟨h1.trans h2, m1.trans m2⟩

/-- The successful parse of one file's JSON, `none` for a file the validator
rejects. -/
def parseSpoolFile (c : StringChecks) (j : Json) : Option SpoolEvent :=
  match validateSpoolEvent c j with
  | .valid e => some e
  | .invalid _ => none

/-- Modelled from the spec: `listSpoolEvents` of the missing `reader.ts` —
"`list()` produces the full set of currently-present, successfully parsed
events ... sorted by priority descending, then `createdAtMs` ascending;
files that fail validation are excluded from this sequence rather than
raising". A directory snapshot is the list of the JSON values of the
present files. -/
def listSpoolEvents (c : StringChecks) (snapshot : List Json) :
    List SpoolEvent :=
  List.insertionSort spoolBefore (snapshot.filterMap (parseSpoolFile c))

/-!
The dispatcher. Its source file (`dispatcher.ts`) is not in the tree; the
dispatch of one event file is modelled from §4.4 of the specification.
Reading the clock and invoking the executor are the dispatcher's two
external calls: the clock is a predicate saying whether an ISO-8601 instant
has passed, the executor an outcome value; whether the executor boundary was
actually reached is recorded as a field of the result, so that
"the executor is never invoked" is a provable statement.
-/

/-- The `status` values of `SpoolDispatchResult`. -/
inductive DispatchStatus where
  | ok : DispatchStatus
  | error : DispatchStatus
  | skipped : DispatchStatus
  | expired : DispatchStatus
deriving DecidableEq, Repr

/-- The `SpoolDispatchResult` of the data model: status, event id, optional
error, optional summary. -/
structure SpoolDispatchResult where
  status : DispatchStatus
  eventId : String
  error : Option String
  summary : Option String
deriving DecidableEq, Repr

/-- What dispatch did to the event file: deleted it, rewrote it in place in
the events directory with the given content, or relocated it to the
dead-letter directory. -/
inductive FileDisposition where
  | deleted : FileDisposition
  | rewritten (e : SpoolEvent) : FileDisposition
  | deadLettered : FileDisposition
deriving DecidableEq, Repr

/-- One dispatch attempt's full observable outcome. -/
structure DispatchStep where
  result : SpoolDispatchResult
  disposition : FileDisposition
  executorInvoked : Bool
deriving DecidableEq, Repr

/-- The external executor's outcome for one invocation. -/
inductive ExecOutcome where
  | success (summary : Option String) : ExecOutcome
  | failure : ExecOutcome
deriving DecidableEq, Repr

/-- Modelled from the spec: whether the event is expired at dispatch time —
"if `expiresAt` is set and has passed". `hasPassed` is the dispatch-time
clock reading of an ISO-8601 instant. -/
def isExpired (hasPassed : String → Bool) (e : SpoolEvent) : Bool :=
  match e.expiresAt with
  | some t => hasPassed t
  | none => false

/-- Modelled from the spec: steps 2–5 of §4.4 for an event that passed
validation. Expired: delete, `status:"expired"`, executor not invoked.
Executor success: delete, `status:"ok"`. Executor failure: increment
`retryCount` (absent means zero); at or past `maxRetries` (default 3)
relocate to dead-letter, otherwise rewrite in place with the incremented
count; either way `status:"error"`. -/
def dispatchValidatedEvent (hasPassed : String → Bool) (exec : ExecOutcome)
    (e : SpoolEvent) : DispatchStep :=
  if isExpired hasPassed e then
    { result := { status := .expired, eventId := e.id, error := none, summary := none }
      disposition := .deleted
      executorInvoked := false }
  else
    match exec with
    | .success summary =>
        { result := { status := .ok, eventId := e.id, error := none, summary := summary }
          disposition := .deleted
          executorInvoked := true }
    | .failure =>
        if e.maxRetries.getD 3 ≤ e.retryCount.getD 0 + 1 then
          { result := { status := .error, eventId := e.id,
                        error := some "agent turn failed", summary := none }
            disposition := .deadLettered
            executorInvoked := true }
        else
          { result := { status := .error, eventId := e.id,
                        error := some "agent turn failed", summary := none }
            disposition := .rewritten { e with retryCount := some (e.retryCount.getD 0 + 1) }
            executorInvoked := true }

/-- What reading the event file produced: unparseable bytes, or a JSON
value. -/
inductive FileRead where
  | unparseable : FileRead
  | parsed (j : Json) : FileRead

/-- Modelled from the spec: `dispatchSpoolEventFile` of the missing
`dispatcher.ts`. Step 1 of §4.4: read and validate; on failure relocate to
dead-letter and return `status:"error"` with the joined validation error —
"this is the only path for inherently malformed files, they never reach
step 2". Otherwise continue with the validated event. `fileId` is the
filename stem the result reports when no event parsed. -/
def dispatchSpoolEventFile (c : StringChecks) (hasPassed : String → Bool)
    (exec : ExecOutcome) (fileId : String) (fr : FileRead) : DispatchStep :=
  match fr with
  | .unparseable =>
      { result := { status := .error, eventId := fileId,
                    error := some "invalid JSON", summary := none }
        disposition := .deadLettered
        executorInvoked := false }
  | .parsed j =>
      match validateSpoolEvent c j with
      | .invalid err =>
          { result := { status := .error, eventId := fileId,
                        error := some err, summary := none }
            disposition := .deadLettered
            executorInvoked := false }
      | .valid e => dispatchValidatedEvent hasPassed exec e

/-!
The watcher (`watcher.ts`, revised version). Filesystem paths are lists of
segments, so `path.basename` is the last segment and `path.join(dir, name)`
appends a segment; filenames are strings, and the JavaScript string tests
`endsWith` / `includes` are the suffix / infix tests on the character
lists.
-/

/-- JavaScript `s.endsWith(suffix)`. -/
def strEndsWith (s suffix : String) : Bool :=
  decide (suffix.data <:+ s.data)

/-- JavaScript `s.includes(sub)`. -/
def strContainsSub (s sub : String) : Bool :=
  decide (sub.data <:+: s.data)

/-- A filesystem path as a list of segments. -/
abbrev FsPath := List String

/-- `path.basename`: the last segment of the path. -/
def basename (p : FsPath) : String := p.getLastD ""

/-- `path.join(eventsDir, id + ".json")` as the watcher builds dispatch
paths. -/
def mkEventPath (eventsDir : FsPath) (id : String) : FsPath :=
  eventsDir ++ [id ++ ".json"]

/-- The candidate test of `processQueue`:
`filename.endsWith(".json") && !filename.includes(".json.tmp.")`. -/
def isCandidateName (filename : String) : Bool :=
  strEndsWith filename ".json" && !(strContainsSub filename ".json.tmp.")

/-- `filename.replace(/\.json$/, "")`: strips a final `.json`, otherwise
returns the name unchanged. -/
def stemOf (filename : String) : String :=
  if strEndsWith filename ".json" then
    { data := filename.data.take (filename.data.length - 5) }
  else filename

/-- The watcher's mutable scheduler state entering a `processQueue` call:
the `running` and `processing` flags and the pending path set. -/
structure WatcherQueueState where
  running : Bool
  processing : Bool
  pendingFiles : List FsPath
deriving DecidableEq, Repr

/-- How one `processQueue` call ended: returned at the re-entrancy /
shutdown guard, returned with no candidate ids, threw because loading the
configuration or listing the events failed (the error surfaces to the
caller), or completed a batch dispatching the given paths in order. -/
inductive BatchOutcome where
  | skipped : BatchOutcome
  | empty : BatchOutcome
  | initFailed : BatchOutcome
  | completed (dispatched : List FsPath) : BatchOutcome
deriving DecidableEq, Repr

/-- The captured paths of a `processQueue` call: the pending paths whose
basename ends in `.json` and does not contain `.json.tmp.`. -/
def capturedPathsOf (pending : List FsPath) : List FsPath :=
  pending.filter (fun p => isCandidateName (basename p))

/-- The pending ids of a `processQueue` call: the filename stems of the
captured paths. -/
def pendingIdsOf (pending : List FsPath) : List String :=
  (capturedPathsOf pending).map (fun p => stemOf (basename p))

/-- The ids dispatched by the two walk loops of `processQueue`: first every
id of the sorted event list that is among the pending ids (in list order),
then every pending id the sorted walk did not match. -/
def dispatchedIds (sortedEvents : List SpoolEvent)
    (pendingIds : List String) : List String :=
  let matched := (sortedEvents.map (fun e => e.id)).filter
    (fun id => pendingIds.contains id)
  matched ++ pendingIds.filter (fun id => !(matched.contains id))

/-- `processQueue` of the revised `watcher.ts`, with its two external calls
made explicit: `init` is `some sortedEvents` when `loadConfig()` and
`listSpoolEvents()` both succeed and `none` when that initialization throws.
The guard returns while a batch is in flight or the watcher is stopped;
candidate paths are captured without being removed; with no candidate ids
the call returns; on initialization failure `pendingFiles` is left intact
and the error propagates; on success exactly the captured paths are removed
and the two walk loops dispatch `eventsDir/{id}.json` per id. -/
def processQueue (eventsDir : FsPath) (init : Option (List SpoolEvent))
    (s : WatcherQueueState) : WatcherQueueState × BatchOutcome :=
  if s.processing || !s.running then (s, .skipped)
  else if (pendingIdsOf s.pendingFiles).isEmpty then (s, .empty)
  else
    match init with
    | none => (s, .initFailed)
    | some sortedEvents =>
        ({ s with
            pendingFiles :=
              (s.pendingFiles.filter
                (fun p => !((capturedPathsOf s.pendingFiles).contains p))) },
         .completed ((dispatchedIds sortedEvents
             (pendingIdsOf s.pendingFiles)).map (mkEventPath eventsDir)))

/-- The paths a batch outcome dispatched. -/
def dispatchedPathsOf : BatchOutcome → List FsPath
  | .completed ds => ds
  | _ => []

/-!
The watcher lifecycle (`start` / `stop` of the revised `watcher.ts`) as a
small-step system over its four shared variables. `start()` runs
synchronously up to `await ensureSpoolEventsDir()`; the remainder of its
body — which opens the chokidar watch without re-checking `running` — is a
separate step that the event loop may run after an intervening `stop()`. -/

structure WatcherLifecycle where
  running : Bool
  watchOpen : Bool
  timerArmed : Bool
  startAwaiting : Bool
deriving DecidableEq, Repr

/-- The freshly created watcher: not running, no watch handle, no timer. -/
def initialLifecycle : WatcherLifecycle :=
  { running := false, watchOpen := false, timerArmed := false,
    startAwaiting := false }

/-- `start()` up to its first await: the idempotence guard, then
`running = true` and the suspension at directory creation. -/
def startCall (s : WatcherLifecycle) : WatcherLifecycle :=
  if s.running then s
  else { s with running := true, startAwaiting := true }

/-- The rest of `start()` once `ensureSpoolEventsDir()` resolves: the
chokidar watch is opened unconditionally — the code does not re-check
`running` after the await. -/
def startResume (s : WatcherLifecycle) : WatcherLifecycle :=
  if s.startAwaiting then
    { s with startAwaiting := false, watchOpen := true }
  else s

/-- `stop()` of the revised `watcher.ts`: the `if (!running) return` guard,
then clear `running`, cancel the timer, and close the watch if one exists. -/
def stopCall (s : WatcherLifecycle) : WatcherLifecycle :=
  if !s.running then s
  else { s with running := false, timerArmed := false, watchOpen := false }

/-!
Concrete fixtures used by the witness theorems.
-/

/-- String checks that accept every string, for concrete evaluations where
the UUID / ISO-8601 shape is not at issue. -/
def checksAll : StringChecks := ⟨fun _ => true, fun _ => true⟩

/-- A clock at which no instant has passed. -/
def neverPassed : String → Bool := fun _ => false

/-- A clock at which every instant has passed. -/
def alwaysPassed : String → Bool := fun _ => true

/-- A minimal schema-valid event file. -/
def goodEventJson : Json :=
  .obj [("version", .num 1), ("id", .str "u1"), ("createdAt", .str "t1"),
        ("createdAtMs", .num 5),
        ("payload", .obj [("kind", .str "agentTurn"), ("message", .str "m")])]

/-- The parsed form of `goodEventJson`. -/
def goodEvent : SpoolEvent := extractEvent goodEventJson

/-- A schema-valid event file whose `expiresAt` is set. -/
def expiredEventJson : Json :=
  .obj [("version", .num 1), ("id", .str "u2"), ("createdAt", .str "t2"),
        ("createdAtMs", .num 7), ("expiresAt", .str "2020-01-01T00:00:00Z"),
        ("payload", .obj [("kind", .str "agentTurn"), ("message", .str "m")])]

/-- The parsed form of `expiredEventJson`. -/
def expiredEvent : SpoolEvent := extractEvent expiredEventJson

/-- The scenario event of the retry claim: `maxRetries` 3, no retries yet,
no expiry. -/
def retryEvent : SpoolEvent :=
  { id := "u3", createdAt := "t3", createdAtMs := 9, priority := none,
    maxRetries := some 3, retryCount := none, expiresAt := none,
    payload := default }

/-!
Small helper lemmas shared by the claims.
-/

/-- A successful parse of a file is exactly a `valid` validator verdict. -/
theorem parseSpoolFile_eq_some (c : StringChecks) (j : Json) (e : SpoolEvent) :
    parseSpoolFile c j = some e ↔ validateSpoolEvent c j = .valid e := by
  unfold parseSpoolFile
  rcases h : validateSpoolEvent c j with e2 | err <;> simp

/-- An unknown top-level key falsifies the strictness conjunct of the
acceptance predicate. -/
theorem schemaAccepts_false_of_unknown (c : StringChecks)
    (fields : List (String × Json)) (k : String)
    (hk : k ∈ fields.map Prod.fst) (hu : k ∉ eventKeys) :
    schemaAccepts c (.obj fields) = false := by
  have hnk : noUnknownKeys eventKeys fields = false := by
    rcases h : noUnknownKeys eventKeys fields with _ | _
    · rfl
    · exfalso
      unfold noUnknownKeys at h
      rw [List.all_eq_true] at h
      have := h k hk
      rw [List.elem_iff] at this
      exact hu this
  simp only [schemaAccepts, Bool.and_eq_false_iff]
  tauto

/-- Stripping the `.json` suffix and appending it back restores the
filename. -/
theorem stemOf_append_json (f : String) (h : strEndsWith f ".json" = true) :
    stemOf f ++ ".json" = f := by
  have hs : ".json".data <:+ f.data := by
    have := of_decide_eq_true h
    exact this
  rcases hs with ⟨pre, hpre⟩
  have hlen : f.data.length = pre.length + 5 := by
    rw [← hpre, List.length_append]
    rfl
  have htake : f.data.take (f.data.length - 5) = pre := by
    rw [hlen, Nat.add_sub_cancel, ← hpre]
    exact List.take_left pre ".json".data
  unfold stemOf
  rw [if_pos h]
  have : ({ data := f.data.take (f.data.length - 5) } : String) = { data := pre } := by
    rw [htake]
  rw [this]
  cases f with
  | mk data =>
      show ({ data := pre ++ ".json".data } : String) = _
      simp only at hpre
      rw [hpre]

/-!
The claims.
-/

/-- C5: for every input object, `validateSpoolEvent` returns `valid` with
the parsed event exactly when the input satisfies the schema (version
literally 1, UUID-shaped id, ISO-8601 `createdAt` and optional `expiresAt`,
positive-integer `createdAtMs`, non-empty payload message, integers ≥ 0 for
the retry fields, and no unknown fields at the top level or inside the
payload or delivery sub-objects); any input with an unknown top-level field
is rejected; and on rejection the error is the single string joining one
`path: message` pair per violation with `"; "`. -/
theorem validateSpoolEvent_accepts_exactly_schema (c : StringChecks) (j : Json) :
    ((∃ e, validateSpoolEvent c j = .valid e) ↔ schemaAccepts c j = true) ∧
    (∀ fields k, j = .obj fields → k ∈ fields.map Prod.fst → k ∉ eventKeys →
        ∃ err, validateSpoolEvent c j = .invalid err) ∧
    (∀ err, validateSpoolEvent c j = .invalid err →
        err = String.intercalate "; " ((spoolEventIssues c j).map renderIssue) ∧
          spoolEventIssues c j ≠ []) := by
  refine ⟨validateSpoolEvent_valid_iff c j, ?_,
    fun err h => validateSpoolEvent_invalid_eq c j err h⟩
  rintro fields k rfl hk hu
  have hf := schemaAccepts_false_of_unknown c fields k hk hu
  rcases hv : validateSpoolEvent c (.obj fields) with e | err
  · have := (validateSpoolEvent_valid_iff c (.obj fields)).mp ⟨e, hv⟩
    rw [hf] at this
    cases this
  · exact ⟨err, rfl⟩

/-- Witness for C5: a minimal schema-valid file is accepted, and the same
file with an unknown top-level field `foo` is rejected. -/
theorem validateSpoolEvent_accepts_exactly_schema_witness :
    (∃ e, validateSpoolEvent checksAll goodEventJson = .valid e) ∧
    (∃ err, validateSpoolEvent checksAll
        (.obj [("version", .num 1), ("foo", .str "bar")]) = .invalid err) :=
  ⟨(validateSpoolEvent_accepts_exactly_schema checksAll goodEventJson).1.mpr
      (by decide),
   (validateSpoolEvent_accepts_exactly_schema checksAll
        (.obj [("version", .num 1), ("foo", .str "bar")])).2.1
      [("version", .num 1), ("foo", .str "bar")] "foo" rfl (by decide) (by decide)⟩

/-- C10: the schema requires `createdAtMs` to be a strictly positive
integer — whatever the rest of the object, a `createdAtMs` number that is
zero, negative or non-integral makes `validateSpoolEvent` reject the
input. -/
theorem createdAtMs_requires_positive_integer (c : StringChecks)
    (fields : List (String × Json)) (q : Rat)
    (hlook : lookupField "createdAtMs" fields = some (.num q))
    (hbad : ¬(q.den = 1 ∧ 0 < q)) :
    ∃ err, validateSpoolEvent c (.obj fields) = .invalid err := by
  rcases hv : validateSpoolEvent c (.obj fields) with e | err
  · exfalso
    have hacc := (validateSpoolEvent_valid_iff c (.obj fields)).mp ⟨e, hv⟩
    simp only [schemaAccepts, Bool.and_eq_true] at hacc
    have h4 : specReq isPosIntNum "createdAtMs" fields = true := by tauto
    unfold specReq at h4
    rw [hlook] at h4
    simp only [isPosIntNum, Bool.and_eq_true, decide_eq_true_eq] at h4
    exact hbad h4
  · exact ⟨err, rfl⟩

/-- Witness for C10: an otherwise-valid event whose `createdAtMs` is `0` is
rejected. -/
theorem createdAtMs_requires_positive_integer_witness :
    ∃ err, validateSpoolEvent checksAll
      (.obj [("version", .num 1), ("id", .str "u"), ("createdAt", .str "t"),
             ("createdAtMs", .num 0),
             ("payload", .obj [("kind", .str "agentTurn"), ("message", .str "m")])])
      = .invalid err :=
  createdAtMs_requires_positive_integer checksAll
    [("version", .num 1), ("id", .str "u"), ("createdAt", .str "t"),
     ("createdAtMs", .num 0),
     ("payload", .obj [("kind", .str "agentTurn"), ("message", .str "m")])]
    0 rfl (by decide)

/-- C1: for every directory snapshot, `list()` returns exactly the
successfully parsed events — each present file that validates appears, each
file that fails validation is excluded rather than raising — sorted by
priority descending (`critical > high > normal > low`, an absent priority
ranking as `normal`) and, within equal priority, by ascending
`createdAtMs`. -/
theorem listSpoolEvents_exact_and_sorted (c : StringChecks)
    (snapshot : List Json) :
    List.Sorted spoolBefore (listSpoolEvents c snapshot) ∧
    (listSpoolEvents c snapshot).Perm (snapshot.filterMap (parseSpoolFile c)) ∧
    (∀ e, e ∈ listSpoolEvents c snapshot ↔
        ∃ j, j ∈ snapshot ∧ validateSpoolEvent c j = .valid e) ∧
    priorityRank none = priorityRankOf .normal := by
  refine ⟨List.sorted_insertionSort spoolBefore _,
    List.perm_insertionSort spoolBefore _, ?_, rfl⟩
  intro e
  unfold listSpoolEvents
  rw [(List.perm_insertionSort spoolBefore _).mem_iff]
  rw [List.mem_filterMap]
  constructor
  · rintro ⟨j, hj, hp⟩
    exact ⟨j, hj, (parseSpoolFile_eq_some c j e).mp hp⟩
  · rintro ⟨j, hj, hv⟩
    exact ⟨j, hj, (parseSpoolFile_eq_some c j e).mpr hv⟩

/-- C3: a file whose contents fail validation — unparseable bytes or a
schema violation — is relocated to dead-letter with `status:"error"`
carrying the joined validation error; it is never rewritten with a retry
count, the expiry check is never reached (the outcome does not depend on
the clock or the executor), and the executor is never invoked. -/
theorem dispatch_invalid_dead_letters (c : StringChecks)
    (hp hp2 : String → Bool) (ex ex2 : ExecOutcome) (fileId : String)
    (fr : FileRead)
    (hbad : fr = .unparseable ∨
      ∃ j err, fr = .parsed j ∧ validateSpoolEvent c j = .invalid err) :
    (dispatchSpoolEventFile c hp ex fileId fr).disposition = .deadLettered ∧
    (dispatchSpoolEventFile c hp ex fileId fr).result.status = .error ∧
    (dispatchSpoolEventFile c hp ex fileId fr).executorInvoked = false ∧
    (∀ j err, fr = .parsed j → validateSpoolEvent c j = .invalid err →
        (dispatchSpoolEventFile c hp ex fileId fr).result.error = some err) ∧
    dispatchSpoolEventFile c hp ex fileId fr =
      dispatchSpoolEventFile c hp2 ex2 fileId fr := by
  rcases hbad with rfl | ⟨j, err, rfl, hv⟩
  · refine ⟨rfl, rfl, rfl, ?_, rfl⟩
    intro j err h
    cases h
  · have hd : ∀ hpx : String → Bool, ∀ exx : ExecOutcome,
        dispatchSpoolEventFile c hpx exx fileId (.parsed j) =
          { result := { status := .error, eventId := fileId,
                        error := some err, summary := none }
            disposition := .deadLettered
            executorInvoked := false } := by
      intro hpx exx
      simp [dispatchSpoolEventFile, hv]
    refine ⟨by rw [hd], by rw [hd], by rw [hd], ?_, by rw [hd, hd]⟩
    rintro j2 err2 heq hv2
    cases heq
    rw [hv] at hv2
    cases hv2
    rw [hd]

/-- Witness for C3: an unparseable file is dead-lettered with
`status:"error"` and the executor is not invoked. -/
theorem dispatch_invalid_dead_letters_witness :
    (dispatchSpoolEventFile checksAll neverPassed (.success none) "f"
        .unparseable).disposition = .deadLettered ∧
    (dispatchSpoolEventFile checksAll neverPassed (.success none) "f"
        .unparseable).executorInvoked = false :=
  ⟨(dispatch_invalid_dead_letters checksAll neverPassed alwaysPassed
      (.success none) .failure "f" .unparseable (Or.inl rfl)).1,
   (dispatch_invalid_dead_letters checksAll neverPassed alwaysPassed
      (.success none) .failure "f" .unparseable (Or.inl rfl)).2.2.1⟩

/-- C4: a valid event whose `expiresAt` is set and has passed at dispatch
time is deleted with `status:"expired"`; it is not moved to dead-letter and
the executor is never invoked. -/
theorem dispatch_expired_deletes (c : StringChecks) (hp : String → Bool)
    (ex : ExecOutcome) (fileId : String) (j : Json) (e : SpoolEvent)
    (t : String) (hval : validateSpoolEvent c j = .valid e)
    (hset : e.expiresAt = some t) (hpast : hp t = true) :
    (dispatchSpoolEventFile c hp ex fileId (.parsed j)).result.status = .expired ∧
    (dispatchSpoolEventFile c hp ex fileId (.parsed j)).disposition = .deleted ∧
    (dispatchSpoolEventFile c hp ex fileId (.parsed j)).disposition ≠ .deadLettered ∧
    (dispatchSpoolEventFile c hp ex fileId (.parsed j)).executorInvoked = false := by
  have hx : isExpired hp e = true := by
    unfold isExpired
    rw [hset]
    exact hpast
  have hd : dispatchSpoolEventFile c hp ex fileId (.parsed j) =
      dispatchValidatedEvent hp ex e := by
    simp [dispatchSpoolEventFile, hval]
  have he : dispatchValidatedEvent hp ex e =
      { result := { status := .expired, eventId := e.id, error := none,
                    summary := none }
        disposition := .deleted
        executorInvoked := false } := by
    unfold dispatchValidatedEvent
    rw [hx]
    rfl
  rw [hd, he]
  exact ⟨rfl, rfl, by simp, rfl⟩

/-- Witness for C4: a concrete event with a past `expiresAt` is deleted as
expired without reaching the executor. -/
theorem dispatch_expired_deletes_witness :
    (dispatchSpoolEventFile checksAll alwaysPassed .failure "f"
        (.parsed expiredEventJson)).result.status = .expired ∧
    (dispatchSpoolEventFile checksAll alwaysPassed .failure "f"
        (.parsed expiredEventJson)).executorInvoked = false :=
  ⟨(dispatch_expired_deletes checksAll alwaysPassed .failure "f"
      expiredEventJson expiredEvent "2020-01-01T00:00:00Z" (by decide) (by decide)
      rfl).1,
   (dispatch_expired_deletes checksAll alwaysPassed .failure "f"
      expiredEventJson expiredEvent "2020-01-01T00:00:00Z" (by decide) (by decide)
      rfl).2.2.2⟩

/-- C2: dispatching a valid, unexpired event whose executor invocation
fails increments `retryCount` by one and returns `status:"error"`; at or
past `maxRetries` the file is relocated to dead-letter, otherwise it is
rewritten in place with the incremented count. In particular, with
`maxRetries = 3` and three consecutive executor failures, the first two
attempts leave the file rewritten with `retryCount` 1 then 2 and the third
relocates it to dead-letter, each attempt reporting `status:"error"`. -/
theorem dispatch_executor_failure_retries (c : StringChecks)
    (hp : String → Bool) (fileId : String) (j : Json) (e : SpoolEvent)
    (hval : validateSpoolEvent c j = .valid e)
    (hexp : isExpired hp e = false) :
    ((dispatchSpoolEventFile c hp .failure fileId (.parsed j)).result.status
        = .error ∧
     (dispatchSpoolEventFile c hp .failure fileId (.parsed j)).disposition =
       (if e.maxRetries.getD 3 ≤ e.retryCount.getD 0 + 1 then .deadLettered
        else .rewritten { e with retryCount := some (e.retryCount.getD 0 + 1) })) ∧
    ((dispatchValidatedEvent neverPassed .failure retryEvent).disposition =
        .rewritten { retryEvent with retryCount := some 1 } ∧
     (dispatchValidatedEvent neverPassed .failure
        { retryEvent with retryCount := some 1 }).disposition =
        .rewritten { retryEvent with retryCount := some 2 } ∧
     (dispatchValidatedEvent neverPassed .failure
        { retryEvent with retryCount := some 2 }).disposition =
        .deadLettered ∧
     (dispatchValidatedEvent neverPassed .failure retryEvent).result.status
        = .error ∧
     (dispatchValidatedEvent neverPassed .failure
        { retryEvent with retryCount := some 1 }).result.status = .error ∧
     (dispatchValidatedEvent neverPassed .failure
        { retryEvent with retryCount := some 2 }).result.status = .error) := by
  constructor
  · have hd : dispatchSpoolEventFile c hp .failure fileId (.parsed j) =
        dispatchValidatedEvent hp .failure e := by
      simp [dispatchSpoolEventFile, hval]
    have he : dispatchValidatedEvent hp .failure e =
        (if e.maxRetries.getD 3 ≤ e.retryCount.getD 0 + 1 then
          ({ result := { status := .error, eventId := e.id,
                         error := some "agent turn failed", summary := none }
             disposition := .deadLettered
             executorInvoked := true } : DispatchStep)
         else
          { result := { status := .error, eventId := e.id,
                        error := some "agent turn failed", summary := none }
            disposition :=
              .rewritten { e with retryCount := some (e.retryCount.getD 0 + 1) }
            executorInvoked := true }) := by
      unfold dispatchValidatedEvent
      rw [hexp]
      rfl
    rw [hd, he]
    constructor
    · split <;> rfl
    · split <;> simp_all
  · exact ⟨by decide, by decide, by decide, by decide, by decide, by decide⟩

/-- Witness for C2: the concrete valid, unexpired event fails dispatch with
`status:"error"`. -/
theorem dispatch_executor_failure_retries_witness :
    (dispatchSpoolEventFile checksAll neverPassed .failure "f"
        (.parsed goodEventJson)).result.status = .error :=
  (dispatch_executor_failure_retries checksAll neverPassed "f" goodEventJson
      goodEvent (by decide) (by decide)).1.1

/-- C6: a batch whose configuration-load or event-listing step throws
leaves the pending set unchanged — in particular every candidate path that
was pending before the batch is still pending afterwards — and ends with
the error surfaced to the caller. -/
theorem processQueue_initFailure_preserves_pending (eventsDir : FsPath)
    (s : WatcherQueueState) (hrun : s.running = true)
    (hproc : s.processing = false)
    (hcand : pendingIdsOf s.pendingFiles ≠ []) :
    (processQueue eventsDir none s).1.pendingFiles = s.pendingFiles ∧
    (∀ p, p ∈ capturedPathsOf s.pendingFiles →
        p ∈ (processQueue eventsDir none s).1.pendingFiles) ∧
    (processQueue eventsDir none s).2 = .initFailed := by
  have h : processQueue eventsDir none s = (s, .initFailed) := by
    unfold processQueue
    rw [hrun, hproc]
    simp [List.isEmpty_iff, hcand]
  rw [h]
  exact ⟨rfl, fun p hp => (List.mem_filter.mp hp).1, rfl⟩

/-- Witness for C6: a concrete failing batch preserves its one pending
candidate and reports the initialization failure. -/
theorem processQueue_initFailure_preserves_pending_witness :
    (processQueue ["events"] none
        ⟨true, false, [["events", "a.json"]]⟩).1.pendingFiles =
      [["events", "a.json"]] ∧
    (processQueue ["events"] none
        ⟨true, false, [["events", "a.json"]]⟩).2 = .initFailed :=
  ⟨(processQueue_initFailure_preserves_pending ["events"]
      ⟨true, false, [["events", "a.json"]]⟩ rfl rfl (by decide)).1,
   (processQueue_initFailure_preserves_pending ["events"]
      ⟨true, false, [["events", "a.json"]]⟩ rfl rfl (by decide)).2.2⟩

/-- C7: the claimed postcondition of `stop()` — no open directory-watch
handle ever remains after a `stop()` returns, the handle being closed
unconditionally even when `running` was already false — fails on the code.
In the trace below, `stop()` lands while `start()` is awaiting directory
creation; the resumed `start()` opens the chokidar watch without re-checking
`running`, and the subsequent `stop()` returns at its `if (!running)` guard
as a no-op: an open watch handle remains while `getState().running` is
false. -/
theorem stop_during_start_leaves_watch_open :
    (stopCall (startResume (stopCall (startCall initialLifecycle)))).watchOpen
        = true ∧
    (stopCall (startResume (stopCall (startCall initialLifecycle)))).running
        = false ∧
    stopCall (startResume (stopCall (startCall initialLifecycle))) =
      startResume (stopCall (startCall initialLifecycle)) := by
  decide

/-- The pending state of the C8 counterexample: one noise path and one
candidate path, watcher running, no batch in flight. -/
def noiseState : WatcherQueueState :=
  { running := true, processing := false,
    pendingFiles := [["events", "junk.txt"], ["events", "e1.json"]] }

/-- C8: the claim — every noise path in the pending set is removed by the
end of the batch cycle, so noise can never accumulate — fails on the
revised `processQueue`: a completed batch deletes only the captured
candidate paths, so a pending path that is not a candidate survives the
cycle and keeps inflating `pendingCount`. -/
theorem processQueue_keeps_noise_path :
    isCandidateName (basename (["events", "junk.txt"] : FsPath)) = false ∧
    (processQueue ["events"] (some []) noiseState).2 =
      .completed [["events", "e1.json"]] ∧
    ["events", "junk.txt"] ∈
      (processQueue ["events"] (some []) noiseState).1.pendingFiles := by
  decide

/-- Every pending id arises as the stem of a captured candidate path's
basename. -/
theorem mem_pendingIdsOf (pending : List FsPath) (id : String)
    (h : id ∈ pendingIdsOf pending) :
    ∃ q, q ∈ pending ∧ isCandidateName (basename q) = true ∧
      id = stemOf (basename q) := by
  unfold pendingIdsOf capturedPathsOf at h
  rcases List.mem_map.mp h with ⟨q, hq, rfl⟩
  rcases List.mem_filter.mp hq with ⟨hmem, hcand⟩
  exact ⟨q, hmem, hcand, rfl⟩

/-- The two walk loops only ever dispatch pending ids. -/
theorem mem_dispatchedIds (evs : List SpoolEvent) (ids : List String)
    (id : String) (h : id ∈ dispatchedIds evs ids) : id ∈ ids := by
  unfold dispatchedIds at h
  rcases List.mem_append.mp h with h | h
  · have hc := (List.mem_filter.mp h).2
    exact List.elem_iff.mp hc
  · exact (List.mem_filter.mp h).1

/-- Every path a batch dispatches is `eventsDir/{id}.json` for a pending
id. -/
theorem mem_dispatchedPaths (eventsDir : FsPath)
    (init : Option (List SpoolEvent)) (s : WatcherQueueState) (q : FsPath)
    (h : q ∈ dispatchedPathsOf (processQueue eventsDir init s).2) :
    ∃ id, id ∈ pendingIdsOf s.pendingFiles ∧ q = mkEventPath eventsDir id := by
  unfold processQueue at h
  by_cases h1 : (s.processing || !s.running) = true
  · rw [if_pos h1] at h
    simp [dispatchedPathsOf] at h
  · rw [if_neg h1] at h
    by_cases h2 : (pendingIdsOf s.pendingFiles).isEmpty = true
    · rw [if_pos h2] at h
      simp [dispatchedPathsOf] at h
    · rw [if_neg h2] at h
      cases init with
      | none => simp [dispatchedPathsOf] at h
      | some evs =>
          simp only [dispatchedPathsOf] at h
          rcases List.mem_map.mp h with ⟨id, hid, rfl⟩
          exact ⟨id, mem_dispatchedIds evs _ id hid, rfl⟩

/-- C9: a path whose filename matches the temporary-write pattern
`.json.tmp.` (or does not end in the `.json` event-file suffix) is never
classified as a candidate by `processQueue` and is never among the paths a
batch dispatches, whatever the batch's initialization outcome and whenever
its notification arrived. -/
theorem processQueue_never_dispatches_noise (eventsDir : FsPath)
    (init : Option (List SpoolEvent)) (s : WatcherQueueState) (p : FsPath)
    (hnoise : strContainsSub (basename p) ".json.tmp." = true ∨
      strEndsWith (basename p) ".json" = false) :
    p ∉ capturedPathsOf s.pendingFiles ∧
    p ∉ dispatchedPathsOf (processQueue eventsDir init s).2 := by
  have hfalse : isCandidateName (basename p) = false := by
    unfold isCandidateName
    rcases hnoise with h | h
    · rw [h]
      simp
    · rw [h]
      simp
  constructor
  · intro hc
    have hmem := (List.mem_filter.mp hc).2
    rw [hfalse] at hmem
    cases hmem
  · intro hd
    rcases mem_dispatchedPaths eventsDir init s p hd with ⟨id, hid, rfl⟩
    rcases mem_pendingIdsOf _ id hid with ⟨r, _, hcand, hstem⟩
    have hends : strEndsWith (basename r) ".json" = true := by
      unfold isCandidateName at hcand
      exact (Bool.and_eq_true _ _ ▸ hcand).1
    have hb : basename (mkEventPath eventsDir id) = id ++ ".json" := by
      unfold mkEventPath basename
      exact List.getLastD_concat _ _ _
    have hid2 : id ++ ".json" = basename r := by
      rw [hstem]
      exact stemOf_append_json (basename r) hends
    rw [hb, hid2, hcand] at hfalse
    cases hfalse

/-- Witness for C9: a temp-write path among the pending files is neither a
candidate nor dispatched by a completed batch containing a real
candidate. -/
theorem processQueue_never_dispatches_noise_witness :
    (["events", "x.json.tmp.1.json"] : FsPath) ∉
      capturedPathsOf [["events", "x.json.tmp.1.json"], ["events", "ok.json"]] ∧
    (["events", "x.json.tmp.1.json"] : FsPath) ∉
      dispatchedPathsOf (processQueue ["events"] (some [])
        ⟨true, false,
          [["events", "x.json.tmp.1.json"], ["events", "ok.json"]]⟩).2 :=
  processQueue_never_dispatches_noise ["events"] (some [])
    ⟨true, false, [["events", "x.json.tmp.1.json"], ["events", "ok.json"]]⟩
    ["events", "x.json.tmp.1.json"] (Or.inl (by decide))

end Spool

